import Mathlib

/-!
Shallow embedding of `src/index.ts` (the RTCStream duplex adapter) and
verification of its specified properties.

Modelling conventions:
* Byte buffers are `List Nat` (`Bytes`); the byte values are opaque.
* The transport handle (`WebSocket | RTCDataChannel`) is external; at each
  point where the adapter reads it, it is summarised by a `TransportView`:
  the current `readyState`, the current `bufferedAmount`, and the synchronous
  outcome of `send` (`none` = success, `some e` = the thrown error `e`).
* Observable actions (calls to `send`, callback invocations, `setTimeout`
  scheduling, listener removal, `close()`, the `_destroy` completion
  callback, the `connect` emission) are recorded in an `Effect` list, in
  the order the code performs them.
* Write callbacks are identified by opaque `Nat` tokens.
* JavaScript numbers for `bufferSize`/`bufferedAmount` are `Nat` (the spec
  requires `bufferedAmount` non-negative); `bufferSize - bufferedAmount`
  (line 108 of the source) is computed in `Int`, as JS subtraction can go
  negative.  `Buffer.slice` is modelled with JavaScript's clamping
  semantics for out-of-range and negative indices (`jsSlice`).
-/

namespace RTCStream

/-- Byte buffers: lists of opaque byte values. -/
abbrev Bytes := List Nat

/-- The transport `readyState`, abstracted over the concrete sentinel values:
`opened` stands for the configured open sentinel (`handle.OPEN` or `"open"`),
`closed` for the closed sentinel (`handle.CLOSED` or `"closed"`), and
`connecting` / `closing` for the remaining states, which the adapter treats
identically (not open, not closed).  `opened` is used because `open` is a
Lean keyword. -/
inductive ReadyState where
  | connecting
  | opened
  | closing
  | closed
deriving DecidableEq, Repr

/-- The adapter configuration fixed at construction:
`bufferSize` (default 524288) and `bufferTimeout` (default 50),
source lines 22-23. -/
structure Config where
  bufferSize : Nat
  bufferTimeout : Nat
deriving DecidableEq, Repr

/-- The transport handle as the adapter observes it during one routine:
its `readyState`, its `bufferedAmount`, and what `send` would do
synchronously when called with a given chunk (`none` = returns normally,
`some e` = throws error `e`). -/
structure TransportView where
  readyState : ReadyState
  bufferedAmount : Nat
  sendResult : Bytes → Option Nat

/-- Errors delivered to a write callback: the `new Error("not connected")`
of line 100 or an error thrown synchronously by `handle.send` (line 128). -/
inductive WriteError where
  | notConnected
  | sendError (e : Nat)
deriving DecidableEq, Repr

/-- Observable actions of the adapter, recorded in execution order. -/
inductive Effect where
  /-- `this.#handle.send(chunk)` was invoked with `chunk` (line 127). -/
  | sent (chunk : Bytes)
  /-- write callback `cb` was invoked with `err` (line 146). -/
  | completed (cb : Nat) (err : Option WriteError)
  /-- `setTimeout(this._maybeProcessPendingWrite, ms)` (lines 110, 135). -/
  | scheduledRetry (ms : Nat)
  /-- `handle.removeEventListener(name, ...)` (lines 69-72). -/
  | removedListener (name : String)
  /-- `this.#handle.close()` (line 74). -/
  | closedHandle
  /-- the `_destroy` completion callback was invoked with `err` (line 76). -/
  | destroyCallback (err : Option String)
  /-- `this.emit("connect")` (line 48). -/
  | emittedConnect
deriving DecidableEq, Repr

/-- The adapter's own mutable fields: `#pendingWriteBuffer` and
`#pendingWriteCallback` (source lines 14-15), both `null` (`none`) at
construction. -/
structure AdapterState where
  pendingWriteBuffer : Option Bytes
  pendingWriteCallback : Option Nat
deriving DecidableEq, Repr

/-- Resolve one index for JavaScript `Buffer.slice` (Uint8Array.subarray):
negative indices count from the end, and everything is clamped to
`[0, len]`. -/
def jsSliceIdx (len : Nat) (i : Int) : Nat :=
  if i < 0 then ((len : Int) + i).toNat else min i.toNat len

/-- JavaScript `buffer.slice(start, stop)` with clamping semantics. -/
def jsSlice (b : Bytes) (start stop : Int) : Bytes :=
  (b.take (jsSliceIdx b.length stop)).drop (jsSliceIdx b.length start)

/-- `bufferSpaceAvailable` of source line 108:
`this.#bufferSize - this.#handle.bufferedAmount`, in `Int` because the JS
subtraction can be negative when `bufferedAmount` exceeds `bufferSize`. -/
def bufferSpaceAvailable (cfg : Config) (t : TransportView) : Int :=
  (cfg.bufferSize : Int) - (t.bufferedAmount : Int)

/-- The `chunk` computed at lines 116-124: the whole pending buffer if it
fits in the available space, else `buffer.slice(0, bufferSpaceAvailable)`. -/
def chunkFor (cfg : Config) (t : TransportView) (b : Bytes) : Bytes :=
  if (b.length : Int) > bufferSpaceAvailable cfg t then
    jsSlice b 0 (bufferSpaceAvailable cfg t)
  else b

/-- The `rest` computed at lines 116-124: `null` if the buffer fits, else
`buffer.slice(bufferSpaceAvailable)` (one-argument slice runs to the end). -/
def restFor (cfg : Config) (t : TransportView) (b : Bytes) : Option Bytes :=
  if (b.length : Int) > bufferSpaceAvailable cfg t then
    some (jsSlice b (bufferSpaceAvailable cfg t) (b.length : Int))
  else none

/-- `_finishPendingWrite` (source lines 142-147): read the stored callback,
clear both pending fields, then invoke the callback with `err`.  The source
uses a non-null assertion on the callback; the `none` branch is unreachable
from any call site (all call under a `some` match). -/
def finishPendingWrite (s : AdapterState) (err : Option WriteError) :
    AdapterState × List Effect :=
  match s.pendingWriteCallback with
  | none => (s, [])
  | some cb => (⟨none, none⟩, [Effect.completed cb err])

/-- `_maybeProcessPendingWrite` (source lines 92-140), one invocation against
the transport view `t`. -/
def maybeProcessPendingWrite (cfg : Config) (t : TransportView)
    (s : AdapterState) : AdapterState × List Effect :=
  match s.pendingWriteCallback with
  | none => (s, [])
  | some cb =>
    if t.readyState = ReadyState.closed then
      finishPendingWrite s (some WriteError.notConnected)
    else if t.readyState ≠ ReadyState.opened then
      (s, [])
    else if bufferSpaceAvailable cfg t = 0 then
      (s, [Effect.scheduledRetry cfg.bufferTimeout])
    else
      let buffer := s.pendingWriteBuffer.getD []
      let chunk := chunkFor cfg t buffer
      match t.sendResult chunk with
      | some e =>
        let r := finishPendingWrite s (some (WriteError.sendError e))
        (r.1, Effect.sent chunk :: r.2)
      | none =>
        match restFor cfg t buffer with
        | some rest =>
          (⟨some rest, some cb⟩,
           [Effect.sent chunk, Effect.scheduledRetry cfg.bufferTimeout])
        | none =>
          let r := finishPendingWrite s none
          (r.1, Effect.sent chunk :: r.2)

/-- `_writev` state update (source lines 87-88): unconditionally install the
concatenation of the chunks as the pending buffer and the new callback as the
pending callback.  Chunks arrive already as bytes (UTF-8 decoding of string
chunks happens before concatenation and is identity at the byte level). -/
def writevInstall (chunks : List Bytes) (cb : Nat) (_s : AdapterState) :
    AdapterState :=
  ⟨some chunks.flatten, some cb⟩

/-- `_writev` (source lines 86-90): install the new write, then invoke
`_maybeProcessPendingWrite` once. -/
def writevCall (cfg : Config) (t : TransportView) (chunks : List Bytes)
    (cb : Nat) (s : AdapterState) : AdapterState × List Effect :=
  maybeProcessPendingWrite cfg t (writevInstall chunks cb s)

/-- `_destroy` (source lines 67-77): remove the four listeners in source
order, close the handle, invoke the completion callback with the incoming
error.  It does not touch the pending-write fields. -/
def destroyImpl (err : Option String) (s : AdapterState) :
    AdapterState × List Effect :=
  (s, [Effect.removedListener "message", Effect.removedListener "error",
       Effect.removedListener "close", Effect.removedListener "open",
       Effect.closedHandle, Effect.destroyCallback err])

/-- The adapter together with the duplex base-class `destroyed` flag. -/
structure DuplexState where
  adapter : AdapterState
  destroyed : Bool
deriving DecidableEq, Repr

/-- Modelled from the spec: the duplex contract's `destroy(err)` lifecycle
(the `stream.Duplex` base class, an external collaborator per §1): it runs
the adapter's `_destroy` at most once, marking the stream destroyed. -/
def duplexDestroy (err : Option String) (d : DuplexState) :
    DuplexState × List Effect :=
  if d.destroyed then (d, [])
  else
    let r := destroyImpl err d.adapter
    (⟨r.1, true⟩, r.2)

/-- `_onOpen` (source lines 47-50): emit `connect`, then try to advance the
pending write. -/
def onOpen (cfg : Config) (t : TransportView) (d : DuplexState) :
    DuplexState × List Effect :=
  let r := maybeProcessPendingWrite cfg t d.adapter
  (⟨r.1, d.destroyed⟩, Effect.emittedConnect :: r.2)

/-- `_onClose` (source lines 52-55): try to advance the pending write, then
destroy with `new Error("connection closed")`. -/
def onClose (cfg : Config) (t : TransportView) (d : DuplexState) :
    DuplexState × List Effect :=
  let r := maybeProcessPendingWrite cfg t d.adapter
  let r' := duplexDestroy (some "connection closed") ⟨r.1, d.destroyed⟩
  (r'.1, r.2 ++ r'.2)

/-- `_onError` (source lines 57-60): like `_onClose`, but the destroy error
carries the event's message when present, else `"connection refused"`.
`msg = none` models an `Event` without a `message` field. -/
def onError (cfg : Config) (t : TransportView) (msg : Option String)
    (d : DuplexState) : DuplexState × List Effect :=
  let r := maybeProcessPendingWrite cfg t d.adapter
  let r' := duplexDestroy (some (msg.getD "connection refused")) ⟨r.1, d.destroyed⟩
  (r'.1, r.2 ++ r'.2)

/-- One externally triggered adapter operation, with the transport view the
adapter observes while handling it. -/
inductive AdapterOp where
  | opWritev (t : TransportView) (chunks : List Bytes) (cb : Nat)
  | opAdvance (t : TransportView)
  | opOpenEvent (t : TransportView)
  | opCloseEvent (t : TransportView)
  | opErrorEvent (t : TransportView) (msg : Option String)
  | opDestroy (err : Option String)

/-- Dispatch one operation, returning the new state and the effects. -/
def applyOp (cfg : Config) (d : DuplexState) : AdapterOp → DuplexState × List Effect
  | AdapterOp.opWritev t chunks cb =>
    let r := writevCall cfg t chunks cb d.adapter
    (⟨r.1, d.destroyed⟩, r.2)
  | AdapterOp.opAdvance t =>
    let r := maybeProcessPendingWrite cfg t d.adapter
    (⟨r.1, d.destroyed⟩, r.2)
  | AdapterOp.opOpenEvent t => onOpen cfg t d
  | AdapterOp.opCloseEvent t => onClose cfg t d
  | AdapterOp.opErrorEvent t msg => onError cfg t msg d
  | AdapterOp.opDestroy err => duplexDestroy err d

/-- The state right after construction (source lines 14-15): both pending
fields `null`, stream not destroyed. -/
def initialState : DuplexState := ⟨⟨none, none⟩, false⟩

/-- Run a sequence of operations from construction. -/
def runOps (cfg : Config) (ops : List AdapterOp) : DuplexState :=
  ops.foldl (fun d op => (applyOp cfg d op).1) initialState

/-- The pending pair invariant: buffer absent iff callback absent. -/
def pairInv (s : AdapterState) : Prop :=
  s.pendingWriteBuffer = none ↔ s.pendingWriteCallback = none

/-- A transport view that is open with `bufferedAmount = a` and whose
`send` always succeeds. -/
def openView (a : Nat) : TransportView :=
  ⟨ReadyState.opened, a, fun _ => none⟩

/-- Repeated invocations of `_maybeProcessPendingWrite` (the scheduled
retries of lines 110 and 135), one per element of `amounts`: at the i-th
invocation the transport is open with `bufferedAmount = amounts[i]` and
`send` succeeds. -/
def advanceTrace (cfg : Config) (amounts : List Nat) (s : AdapterState) :
    AdapterState × List Effect :=
  match amounts with
  | [] => (s, [])
  | a :: rest =>
    let r := maybeProcessPendingWrite cfg (openView a) s
    let r' := advanceTrace cfg rest r.1
    (r'.1, r.2 ++ r'.2)

/-- The chunks passed to `send`, in call order. -/
def sentChunks : List Effect → List Bytes
  | [] => []
  | Effect.sent c :: rest => c :: sentChunks rest
  | _ :: rest => sentChunks rest

/-- The write-callback invocations, in order. -/
def completions : List Effect → List (Nat × Option WriteError)
  | [] => []
  | Effect.completed cb err :: rest => (cb, err) :: completions rest
  | _ :: rest => completions rest

/-- A sequence of writes, each fully driven by its own poll trace before the
next is submitted (the duplex contract admits a new write only after the
previous callback fired): each job is the submitted buffer, its callback
token, and the `bufferedAmount` values observed at its advance attempts. -/
def processWrites (cfg : Config) (jobs : List (Bytes × Nat × List Nat))
    (s : AdapterState) : AdapterState × List Effect :=
  match jobs with
  | [] => (s, [])
  | (b, cb, amounts) :: rest =>
    let r := advanceTrace cfg amounts (writevInstall [b] cb s)
    let r' := processWrites cfg rest r.1
    (r'.1, r.2 ++ r'.2)

/-- Run a sequence of operations from an arbitrary state, collecting the
effects of every operation in order. -/
def runOpsFrom (cfg : Config) (d : DuplexState) :
    List AdapterOp → DuplexState × List Effect
  | [] => (d, [])
  | op :: rest =>
    let r := applyOp cfg d op
    let r' := runOpsFrom cfg r.1 rest
    (r'.1, r.2 ++ r'.2)

/-- The operation is a `_writev` call installing callback token `c`. -/
def opInstalls (c : Nat) : AdapterOp → Prop
  | AdapterOp.opWritev _ _ cb => cb = c
  | _ => False

lemma openView_readyState (a : Nat) :
    (openView a).readyState = ReadyState.opened := rfl

lemma openView_send (a : Nat) (c : Bytes) : (openView a).sendResult c = none := rfl

lemma sentChunks_append (l1 l2 : List Effect) :
    sentChunks (l1 ++ l2) = sentChunks l1 ++ sentChunks l2 := by
  induction l1 with
  | nil => rfl
  | cons e rest ih => cases e <;> simp [sentChunks, ih]

lemma sentChunks_connect (l : List Effect) :
    sentChunks (Effect.emittedConnect :: l) = sentChunks l := rfl

lemma completions_append (l1 l2 : List Effect) :
    completions (l1 ++ l2) = completions l1 ++ completions l2 := by
  induction l1 with
  | nil => rfl
  | cons e rest ih => cases e <;> simp [completions, ih]

lemma bufferSpaceAvailable_openView (cfg : Config) (a : Nat) (ha : a < cfg.bufferSize) :
    bufferSpaceAvailable cfg (openView a) = ((cfg.bufferSize - a : Nat) : Int) := by
  simp only [bufferSpaceAvailable, openView]
  omega

lemma chunkFor_small (cfg : Config) (a : Nat) (b : Bytes)
    (ha : a < cfg.bufferSize) (hb : b.length ≤ cfg.bufferSize - a) :
    chunkFor cfg (openView a) b = b := by
  rw [chunkFor, bufferSpaceAvailable_openView cfg a ha, if_neg]
  omega

lemma restFor_small (cfg : Config) (a : Nat) (b : Bytes)
    (ha : a < cfg.bufferSize) (hb : b.length ≤ cfg.bufferSize - a) :
    restFor cfg (openView a) b = none := by
  rw [restFor, bufferSpaceAvailable_openView cfg a ha, if_neg]
  omega

lemma jsSliceIdx_natCast (len h : Nat) : jsSliceIdx len ((h : Nat) : Int) = min h len := by
  rw [jsSliceIdx, if_neg (by omega)]
  simp

lemma jsSlice_takes (b : Bytes) (h : Nat) (hb : h < b.length) :
    jsSlice b 0 ((h : Nat) : Int) = b.take h := by
  have h0 : jsSliceIdx b.length 0 = 0 := by
    rw [jsSliceIdx, if_neg (by omega)]
    simp
  rw [jsSlice, h0, jsSliceIdx_natCast]
  simp [min_eq_left hb.le]

lemma jsSlice_drops (b : Bytes) (h : Nat) (hb : h < b.length) :
    jsSlice b ((h : Nat) : Int) (b.length : Int) = b.drop h := by
  rw [jsSlice, jsSliceIdx_natCast, jsSliceIdx_natCast]
  simp [min_eq_left hb.le]

lemma chunkFor_big (cfg : Config) (a : Nat) (b : Bytes)
    (ha : a < cfg.bufferSize) (hb : cfg.bufferSize - a < b.length) :
    chunkFor cfg (openView a) b = b.take (cfg.bufferSize - a) := by
  rw [chunkFor, bufferSpaceAvailable_openView cfg a ha, if_pos (by omega),
    jsSlice_takes b (cfg.bufferSize - a) hb]

lemma restFor_big (cfg : Config) (a : Nat) (b : Bytes)
    (ha : a < cfg.bufferSize) (hb : cfg.bufferSize - a < b.length) :
    restFor cfg (openView a) b = some (b.drop (cfg.bufferSize - a)) := by
  rw [restFor, bufferSpaceAvailable_openView cfg a ha, if_pos (by omega),
    jsSlice_drops b (cfg.bufferSize - a) hb]

lemma maybeProcess_callback_none (cfg : Config) (t : TransportView)
    (s : AdapterState) (h : s.pendingWriteCallback = none) :
    maybeProcessPendingWrite cfg t s = (s, []) := by
  rw [maybeProcessPendingWrite, h]

lemma maybeProcess_open_small (cfg : Config) (a : Nat) (b : Bytes) (cb : Nat)
    (ha : a < cfg.bufferSize) (hb : b.length ≤ cfg.bufferSize - a) :
    maybeProcessPendingWrite cfg (openView a) ⟨some b, some cb⟩ =
      (⟨none, none⟩, [Effect.sent b, Effect.completed cb none]) := by
  have hsp : ¬ bufferSpaceAvailable cfg (openView a) = 0 := by
    rw [bufferSpaceAvailable_openView cfg a ha]; omega
  rw [maybeProcessPendingWrite]
  simp only [openView_readyState, openView_send]
  rw [if_neg (by simp), if_neg (by simp), if_neg hsp]
  simp only [Option.getD_some, chunkFor_small cfg a b ha hb,
    restFor_small cfg a b ha hb, finishPendingWrite]

lemma maybeProcess_open_big (cfg : Config) (a : Nat) (b : Bytes) (cb : Nat)
    (ha : a < cfg.bufferSize) (hb : cfg.bufferSize - a < b.length) :
    maybeProcessPendingWrite cfg (openView a) ⟨some b, some cb⟩ =
      (⟨some (b.drop (cfg.bufferSize - a)), some cb⟩,
       [Effect.sent (b.take (cfg.bufferSize - a)),
        Effect.scheduledRetry cfg.bufferTimeout]) := by
  have hsp : ¬ bufferSpaceAvailable cfg (openView a) = 0 := by
    rw [bufferSpaceAvailable_openView cfg a ha]; omega
  rw [maybeProcessPendingWrite]
  simp only [openView_readyState, openView_send]
  rw [if_neg (by simp), if_neg (by simp), if_neg hsp]
  simp only [Option.getD_some, chunkFor_big cfg a b ha hb,
    restFor_big cfg a b ha hb]

lemma maybeProcess_closed (cfg : Config) (t : TransportView)
    (b : Bytes) (cb : Nat) (h : t.readyState = ReadyState.closed) :
    maybeProcessPendingWrite cfg t ⟨some b, some cb⟩ =
      (⟨none, none⟩, [Effect.completed cb (some WriteError.notConnected)]) := by
  rw [maybeProcessPendingWrite]
  simp [h, finishPendingWrite]

lemma advanceTrace_noop (cfg : Config) (amounts : List Nat) (s : AdapterState)
    (h : s.pendingWriteCallback = none) :
    advanceTrace cfg amounts s = (s, []) := by
  induction amounts with
  | nil => rfl
  | cons a rest ih => simp [advanceTrace, maybeProcess_callback_none cfg _ s h, ih]

lemma advanceTrace_drain (cfg : Config) (amounts : List Nat) :
    ∀ (b : Bytes) (cb : Nat),
      (∀ x ∈ amounts, x < cfg.bufferSize) → b.length < amounts.length →
      (advanceTrace cfg amounts ⟨some b, some cb⟩).1 = ⟨none, none⟩ ∧
      (sentChunks (advanceTrace cfg amounts ⟨some b, some cb⟩).2).flatten = b ∧
      completions (advanceTrace cfg amounts ⟨some b, some cb⟩).2 = [(cb, none)] := by
  induction amounts with
  | nil =>
    intro b cb hall hlen
    simp at hlen
  | cons a rest ih =>
    intro b cb hall hlen
    have ha : a < cfg.bufferSize := hall a (List.mem_cons_self a rest)
    by_cases hsmall : b.length ≤ cfg.bufferSize - a
    · have hstep := maybeProcess_open_small cfg a b cb ha hsmall
      simp [advanceTrace, hstep, advanceTrace_noop cfg rest ⟨none, none⟩ rfl,
        sentChunks, completions]
    · push_neg at hsmall
      have hstep := maybeProcess_open_big cfg a b cb ha hsmall
      have hlen' : (b.drop (cfg.bufferSize - a)).length < rest.length := by
        simp only [List.length_drop]
        simp only [List.length_cons] at hlen
        omega
      have ih' := ih (b.drop (cfg.bufferSize - a)) cb
        (fun x hx => hall x (List.mem_cons_of_mem a hx)) hlen'
      simp only [advanceTrace, hstep] at *
      refine ⟨ih'.1, ?_, ?_⟩
      · simp [sentChunks_append, sentChunks, ih'.2.1]
      · simp [completions_append, completions, ih'.2.2]

/-- Exhaustive enumeration of the possible outcomes of one invocation of
`_maybeProcessPendingWrite`. -/
lemma maybeProcess_spec (cfg : Config) (t : TransportView) (s : AdapterState) :
    (s.pendingWriteCallback = none ∧ maybeProcessPendingWrite cfg t s = (s, [])) ∨
    ∃ cb, s.pendingWriteCallback = some cb ∧
      (maybeProcessPendingWrite cfg t s
          = (⟨none, none⟩, [Effect.completed cb (some WriteError.notConnected)]) ∨
       maybeProcessPendingWrite cfg t s = (s, []) ∨
       maybeProcessPendingWrite cfg t s
          = (s, [Effect.scheduledRetry cfg.bufferTimeout]) ∨
       (∃ ch e, maybeProcessPendingWrite cfg t s
          = (⟨none, none⟩,
             [Effect.sent ch, Effect.completed cb (some (WriteError.sendError e))])) ∨
       (∃ ch r, maybeProcessPendingWrite cfg t s
          = (⟨some r, some cb⟩,
             [Effect.sent ch, Effect.scheduledRetry cfg.bufferTimeout])) ∨
       (∃ ch, maybeProcessPendingWrite cfg t s
          = (⟨none, none⟩, [Effect.sent ch, Effect.completed cb none]))) := by
  rcases hs : s.pendingWriteCallback with _ | cb
  · exact Or.inl ⟨rfl, maybeProcess_callback_none cfg t s hs⟩
  · refine Or.inr ⟨cb, rfl, ?_⟩
    simp only [maybeProcessPendingWrite, finishPendingWrite, hs]
    by_cases h1 : t.readyState = ReadyState.closed
    · rw [if_pos h1]
      exact Or.inl rfl
    · rw [if_neg h1]
      by_cases h2 : t.readyState = ReadyState.opened
      · rw [if_neg (not_not_intro h2)]
        by_cases h3 : bufferSpaceAvailable cfg t = 0
        · rw [if_pos h3]
          exact Or.inr (Or.inr (Or.inl rfl))
        · rw [if_neg h3]
          rcases hsend : t.sendResult (chunkFor cfg t (s.pendingWriteBuffer.getD []))
              with _ | e
          · rcases hrest : restFor cfg t (s.pendingWriteBuffer.getD []) with _ | r
            · exact Or.inr (Or.inr (Or.inr (Or.inr (Or.inr ⟨_, rfl⟩))))
            · exact Or.inr (Or.inr (Or.inr (Or.inr (Or.inl ⟨_, r, rfl⟩))))
          · exact Or.inr (Or.inr (Or.inr (Or.inl ⟨_, e, rfl⟩)))
      · rw [if_pos h2]
        exact Or.inr (Or.inl rfl)

lemma maybeProcess_pairInv (cfg : Config) (t : TransportView) (s : AdapterState)
    (h : pairInv s) : pairInv (maybeProcessPendingWrite cfg t s).1 := by
  rcases maybeProcess_spec cfg t s with ⟨_, heq⟩ | ⟨cb, hcb, hcase⟩
  · rw [heq]; exact h
  · rcases hcase with heq | heq | heq | ⟨ch, e, heq⟩ | ⟨ch, r, heq⟩ | ⟨ch, heq⟩ <;>
      rw [heq] <;> first | exact h | simp [pairInv]

lemma maybeProcess_completion_src (cfg : Config) (t : TransportView)
    (s : AdapterState) (c : Nat) (err : Option WriteError)
    (h : (c, err) ∈ completions (maybeProcessPendingWrite cfg t s).2) :
    s.pendingWriteCallback = some c := by
  rcases maybeProcess_spec cfg t s with ⟨hcb, heq⟩ | ⟨cb, hcb, hcase⟩
  · rw [heq] at h
    simp [completions] at h
  · rcases hcase with heq | heq | heq | ⟨ch, e, heq⟩ | ⟨ch, r, heq⟩ | ⟨ch, heq⟩ <;>
      rw [heq] at h <;> simp [completions] at h <;> simp [hcb, h.1]

lemma maybeProcess_callback_after (cfg : Config) (t : TransportView)
    (s : AdapterState) :
    (maybeProcessPendingWrite cfg t s).1.pendingWriteCallback
        = s.pendingWriteCallback ∨
    (maybeProcessPendingWrite cfg t s).1.pendingWriteCallback = none := by
  rcases maybeProcess_spec cfg t s with ⟨hcb, heq⟩ | ⟨cb, hcb, hcase⟩
  · rw [heq]; exact Or.inl rfl
  · rcases hcase with heq | heq | heq | ⟨ch, e, heq⟩ | ⟨ch, r, heq⟩ | ⟨ch, heq⟩ <;>
      rw [heq] <;> simp [hcb]

lemma duplexDestroy_adapter (err : Option String) (d : DuplexState) :
    (duplexDestroy err d).1.adapter = d.adapter := by
  rw [duplexDestroy]
  split
  · rfl
  · rfl

lemma completions_destroyImpl (err : Option String) (s : AdapterState) :
    completions (destroyImpl err s).2 = [] := rfl

lemma completions_duplexDestroy (err : Option String) (d : DuplexState) :
    completions (duplexDestroy err d).2 = [] := by
  rw [duplexDestroy]
  split
  · rfl
  · rfl

lemma applyOp_pairInv (cfg : Config) (d : DuplexState) (op : AdapterOp)
    (h : pairInv d.adapter) : pairInv ((applyOp cfg d op).1).adapter := by
  cases op with
  | opWritev t chunks cb =>
    exact maybeProcess_pairInv cfg t _ (by simp [pairInv, writevInstall])
  | opAdvance t => exact maybeProcess_pairInv cfg t _ h
  | opOpenEvent t => exact maybeProcess_pairInv cfg t _ h
  | opCloseEvent t =>
    show pairInv ((duplexDestroy _ _).1).adapter
    rw [duplexDestroy_adapter]
    exact maybeProcess_pairInv cfg t _ h
  | opErrorEvent t msg =>
    show pairInv ((duplexDestroy _ _).1).adapter
    rw [duplexDestroy_adapter]
    exact maybeProcess_pairInv cfg t _ h
  | opDestroy err =>
    show pairInv ((duplexDestroy _ _).1).adapter
    rw [duplexDestroy_adapter]
    exact h

lemma applyOp_completion_src (cfg : Config) (d : DuplexState) (op : AdapterOp)
    (c : Nat) (err : Option WriteError)
    (h : (c, err) ∈ completions (applyOp cfg d op).2) :
    d.adapter.pendingWriteCallback = some c ∨ opInstalls c op := by
  cases op with
  | opWritev t chunks cb =>
    right
    simp only [applyOp, writevCall] at h
    have hsrc := maybeProcess_completion_src cfg t _ c err h
    simp only [writevInstall, Option.some_inj] at hsrc
    simpa [opInstalls] using hsrc
  | opAdvance t =>
    exact Or.inl (maybeProcess_completion_src cfg t _ c err h)
  | opOpenEvent t =>
    simp only [applyOp, onOpen, completions] at h
    exact Or.inl (maybeProcess_completion_src cfg t _ c err h)
  | opCloseEvent t =>
    simp only [applyOp, onClose, completions_append,
      completions_duplexDestroy, List.append_nil] at h
    exact Or.inl (maybeProcess_completion_src cfg t _ c err h)
  | opErrorEvent t msg =>
    simp only [applyOp, onError, completions_append,
      completions_duplexDestroy, List.append_nil] at h
    exact Or.inl (maybeProcess_completion_src cfg t _ c err h)
  | opDestroy err' =>
    rw [show (applyOp cfg d (AdapterOp.opDestroy err')) = duplexDestroy err' d
      from rfl, completions_duplexDestroy] at h
    simp at h

lemma applyOp_callback_after (cfg : Config) (d : DuplexState) (op : AdapterOp)
    (c : Nat)
    (h : ((applyOp cfg d op).1).adapter.pendingWriteCallback = some c) :
    d.adapter.pendingWriteCallback = some c ∨ opInstalls c op := by
  cases op with
  | opWritev t chunks cb =>
    right
    simp only [applyOp, writevCall] at h
    rcases maybeProcess_callback_after cfg t (writevInstall chunks cb d.adapter)
        with hc | hc
    · rw [hc] at h
      simp only [writevInstall, Option.some_inj] at h
      simpa [opInstalls] using h
    · rw [hc] at h
      exact absurd h (by simp)
  | opAdvance t =>
    rcases maybeProcess_callback_after cfg t d.adapter with hc | hc
    · exact Or.inl (hc ▸ h)
    · exact absurd h (by simp [applyOp] at hc ⊢; simp [hc])
  | opOpenEvent t =>
    rcases maybeProcess_callback_after cfg t d.adapter with hc | hc
    · exact Or.inl (hc ▸ h)
    · exact absurd h (by simp [applyOp, onOpen] at hc ⊢; simp [hc])
  | opCloseEvent t =>
    rw [show ((applyOp cfg d (AdapterOp.opCloseEvent t)).1).adapter
        = (duplexDestroy (some "connection closed")
            ⟨(maybeProcessPendingWrite cfg t d.adapter).1, d.destroyed⟩).1.adapter
      from rfl, duplexDestroy_adapter] at h
    rcases maybeProcess_callback_after cfg t d.adapter with hc | hc
    · exact Or.inl (hc ▸ h)
    · exact absurd h (by simp [hc])
  | opErrorEvent t msg =>
    rw [show ((applyOp cfg d (AdapterOp.opErrorEvent t msg)).1).adapter
        = (duplexDestroy (some (msg.getD "connection refused"))
            ⟨(maybeProcessPendingWrite cfg t d.adapter).1, d.destroyed⟩).1.adapter
      from rfl, duplexDestroy_adapter] at h
    rcases maybeProcess_callback_after cfg t d.adapter with hc | hc
    · exact Or.inl (hc ▸ h)
    · exact absurd h (by simp [hc])
  | opDestroy err' =>
    rw [show ((applyOp cfg d (AdapterOp.opDestroy err')).1).adapter
        = (duplexDestroy err' d).1.adapter from rfl,
      duplexDestroy_adapter] at h
    exact Or.inl h

lemma runOpsFrom_no_foreign_completion (cfg : Config) (c : Nat)
    (ops : List AdapterOp) :
    ∀ d : DuplexState,
      d.adapter.pendingWriteCallback ≠ some c →
      (∀ op ∈ ops, ¬ opInstalls c op) →
      (∀ err, (c, err) ∉ completions (runOpsFrom cfg d ops).2) ∧
      (runOpsFrom cfg d ops).1.adapter.pendingWriteCallback ≠ some c := by
  induction ops with
  | nil =>
    intro d hd hops
    exact ⟨fun err hmem => by simp [runOpsFrom, completions] at hmem, hd⟩
  | cons op rest ih =>
    intro d hd hops
    have h2 : (applyOp cfg d op).1.adapter.pendingWriteCallback ≠ some c := by
      intro hsome
      rcases applyOp_callback_after cfg d op c hsome with h | h
      · exact hd h
      · exact hops op (List.mem_cons_self _ _) h
    have ih' := ih (applyOp cfg d op).1 h2
      (fun x hx => hops x (List.mem_cons_of_mem _ hx))
    refine ⟨fun err hmem => ?_, ?_⟩
    · simp only [runOpsFrom, completions_append, List.mem_append] at hmem
      rcases hmem with hmem | hmem
      · rcases applyOp_completion_src cfg d op c err hmem with h | h
        · exact hd h
        · exact hops op (List.mem_cons_self _ _) h
      · exact ih'.1 err hmem
    · simpa only [runOpsFrom] using ih'.2

example : jsSlice [1, 2, 3] 0 2 = [1, 2] := by decide
example : jsSlice [1, 2, 3] 0 (-2) = [1] := by decide
example : jsSlice [1, 2, 3] (-2) 3 = [2, 3] := by decide
example : jsSlice [1, 2] 0 (-5) = [] := by decide
example :
    maybeProcessPendingWrite ⟨10, 50⟩ (openView 0) ⟨some [1, 2, 3], some 7⟩ =
      (⟨none, none⟩, [Effect.sent [1, 2, 3], Effect.completed 7 none]) := by
  decide
example :
    maybeProcessPendingWrite ⟨2, 50⟩ (openView 0) ⟨some [1, 2, 3], some 7⟩ =
      (⟨some [3], some 7⟩, [Effect.sent [1, 2], Effect.scheduledRetry 50]) := by
  decide

/-- Claim C1: for every sequence of byte buffers submitted as writes while the
transport's `readyState` is the open sentinel and the buffer headroom
(`bufferSize - bufferedAmount`) is positive at every advance attempt (with
each write given enough polls to complete before the next arrives, as the
duplex contract serializes writes), the byte buffers passed to `send`,
concatenated in call order, equal the concatenation of the submitted
buffers in submission order. -/
theorem writes_concat_preserved (cfg : Config)
    (jobs : List (Bytes × Nat × List Nat)) (s : AdapterState)
    (hpos : ∀ j ∈ jobs, ∀ a ∈ j.2.2, a < cfg.bufferSize)
    (hlen : ∀ j ∈ jobs, j.1.length < j.2.2.length) :
    (sentChunks (processWrites cfg jobs s).2).flatten
      = (jobs.map (fun j => j.1)).flatten := by
  induction jobs generalizing s with
  | nil => simp [processWrites, sentChunks]
  | cons j rest ih =>
    obtain ⟨b, cb, amounts⟩ := j
    have hd := advanceTrace_drain cfg amounts b cb
      (hpos _ (List.mem_cons_self _ _)) (hlen _ (List.mem_cons_self _ _))
    have hinst : writevInstall [b] cb s = ⟨some b, some cb⟩ := by
      simp [writevInstall]
    simp only [processWrites, hinst, List.map_cons, List.flatten_cons,
      sentChunks_append, List.flatten_append, hd.1, hd.2.1]
    rw [ih _ (fun x hx => hpos x (List.mem_cons_of_mem _ hx))
      (fun x hx => hlen x (List.mem_cons_of_mem _ hx))]

/-- Witness for C1 at a concrete input: two writes `[1,2]` then `[3]`,
`bufferSize = 10`, transport open with `bufferedAmount = 0` at each poll. -/
theorem writes_concat_preserved_witness :
    (∀ j ∈ ([([1, 2], 0, [0, 0, 0]), ([3], 1, [0, 0])] :
        List (Bytes × Nat × List Nat)), ∀ a ∈ j.2.2, a < (10 : Nat)) ∧
    (∀ j ∈ ([([1, 2], 0, [0, 0, 0]), ([3], 1, [0, 0])] :
        List (Bytes × Nat × List Nat)), j.1.length < j.2.2.length) ∧
    (sentChunks (processWrites ⟨10, 50⟩
        [([1, 2], 0, [0, 0, 0]), ([3], 1, [0, 0])] ⟨none, none⟩).2).flatten
      = (([([1, 2], 0, [0, 0, 0]), ([3], 1, [0, 0])] :
          List (Bytes × Nat × List Nat)).map (fun j => j.1)).flatten :=
  ⟨by decide, by decide,
   writes_concat_preserved ⟨10, 50⟩ _ _ (by decide) (by decide)⟩

/-- Claim C2 (amended: the hypothesis "headroom non-zero" is strengthened to
"headroom positive", i.e. `bufferedAmount < bufferSize`; with negative
headroom the claim fails, see the counterexample): when the positive
headroom `h = bufferSize - bufferedAmount` is strictly smaller than the
pending buffer, one advance step sends exactly the `h`-sized prefix, keeps
exactly the remaining suffix with the callback unchanged, and schedules a
retry after `bufferTimeout`; and repeated steps under positive headroom
eventually send the full buffer, in order. -/
theorem partial_send_prefix_then_drain (cfg : Config) (a : Nat) (b : Bytes)
    (cb : Nat) (ha : a < cfg.bufferSize) (hb : cfg.bufferSize - a < b.length) :
    maybeProcessPendingWrite cfg (openView a) ⟨some b, some cb⟩ =
      (⟨some (b.drop (cfg.bufferSize - a)), some cb⟩,
       [Effect.sent (b.take (cfg.bufferSize - a)),
        Effect.scheduledRetry cfg.bufferTimeout]) ∧
    (b.take (cfg.bufferSize - a)).length = cfg.bufferSize - a ∧
    ∀ amounts : List Nat,
      (∀ x ∈ amounts, x < cfg.bufferSize) → b.length < amounts.length →
      (sentChunks (advanceTrace cfg amounts ⟨some b, some cb⟩).2).flatten = b :=
  ⟨maybeProcess_open_big cfg a b cb ha hb,
   by simp [hb.le],
   fun amounts h1 h2 => (advanceTrace_drain cfg amounts b cb h1 h2).2.1⟩

/-- Witness for C2 (amended) at `bufferSize = 2`, `bufferedAmount = 0`,
buffer `[5, 6, 7]`: the step sends `[5, 6]` and keeps `[7]`. -/
theorem partial_send_prefix_then_drain_witness :
    (0 : Nat) < 2 ∧ (2 : Nat) - 0 < ([5, 6, 7] : Bytes).length ∧
    maybeProcessPendingWrite ⟨2, 50⟩ (openView 0) ⟨some [5, 6, 7], some 4⟩ =
      (⟨some [7], some 4⟩,
       [Effect.sent [5, 6], Effect.scheduledRetry 50]) :=
  ⟨by decide, by decide,
   (partial_send_prefix_then_drain ⟨2, 50⟩ 0 [5, 6, 7] 4
     (by decide) (by decide)).1⟩

/-- Counterexample to C2 as stated: with `bufferSize = 1` and
`bufferedAmount = 3` the headroom is `-2`: non-zero and smaller than the
pending buffer's length `2`, so the claim's hypotheses hold, yet the
advance step passes the empty buffer to `send` (`Buffer.slice(0, -2)`)
and leaves the whole pending buffer in place, so no "headroom-sized
prefix" is sent (the sent chunk's length `0` differs from the headroom)
and repeated steps never make progress. -/
theorem partial_send_nonzero_headroom_cex :
    bufferSpaceAvailable ⟨1, 50⟩ (openView 3) ≠ 0 ∧
    bufferSpaceAvailable ⟨1, 50⟩ (openView 3) < (([7, 8] : Bytes).length : Int) ∧
    maybeProcessPendingWrite ⟨1, 50⟩ (openView 3) ⟨some [7, 8], some 0⟩ =
      (⟨some [7, 8], some 0⟩,
       [Effect.sent [], Effect.scheduledRetry 50]) ∧
    ((([] : Bytes).length : Int) ≠ bufferSpaceAvailable ⟨1, 50⟩ (openView 3)) := by
  refine ⟨by decide, by decide, ?_, by decide⟩
  decide

/-- Claim C3: whenever the advance routine runs with an outstanding write and
the transport's `readyState` equal to the closed sentinel, the write's
callback is invoked exactly once with the "not connected" error, both
pending fields are cleared, and `send` is not called (the effect list is
exactly one `completed` effect). -/
theorem closed_fails_pending_write (cfg : Config) (t : TransportView)
    (b : Bytes) (cb : Nat) (h : t.readyState = ReadyState.closed) :
    maybeProcessPendingWrite cfg t ⟨some b, some cb⟩ =
      (⟨none, none⟩, [Effect.completed cb (some WriteError.notConnected)]) :=
  maybeProcess_closed cfg t b cb h

/-- Witness for C3 at a concrete closed transport. -/
theorem closed_fails_pending_write_witness :
    (TransportView.mk ReadyState.closed 0 (fun _ => none)).readyState
        = ReadyState.closed ∧
    maybeProcessPendingWrite ⟨10, 50⟩
        ⟨ReadyState.closed, 0, fun _ => none⟩ ⟨some [1, 2], some 3⟩ =
      (⟨none, none⟩, [Effect.completed 3 (some WriteError.notConnected)]) :=
  ⟨rfl, closed_fails_pending_write ⟨10, 50⟩ _ [1, 2] 3 rfl⟩

/-- Claim C4 (amended: the conclusion holds provided the transport's
`readyState` equals the closed sentinel when the handler runs — guaranteed
for close events, but an error event may be delivered while `readyState` is
still the connecting/closing value, in which case the pending write is not
failed by the adapter, see the counterexample): on a close or error event
with a write pending and the stream not yet destroyed, the destroy path
runs exactly once — all four listeners are removed, the transport's
`close()` is invoked — and the pending write's callback is invoked (with
the not-connected error) before the destroy completion callback fires; the
destroy error is the event's message if present, else "connection refused"
for error events, and "connection closed" for close events. -/
theorem close_error_destroy_path (cfg : Config) (t : TransportView)
    (b : Bytes) (cb : Nat) (msg : Option String)
    (hrs : t.readyState = ReadyState.closed) :
    onClose cfg t ⟨⟨some b, some cb⟩, false⟩ =
      (⟨⟨none, none⟩, true⟩,
       [Effect.completed cb (some WriteError.notConnected),
        Effect.removedListener "message", Effect.removedListener "error",
        Effect.removedListener "close", Effect.removedListener "open",
        Effect.closedHandle,
        Effect.destroyCallback (some "connection closed")]) ∧
    onError cfg t msg ⟨⟨some b, some cb⟩, false⟩ =
      (⟨⟨none, none⟩, true⟩,
       [Effect.completed cb (some WriteError.notConnected),
        Effect.removedListener "message", Effect.removedListener "error",
        Effect.removedListener "close", Effect.removedListener "open",
        Effect.closedHandle,
        Effect.destroyCallback (some (msg.getD "connection refused"))]) := by
  have hstep := maybeProcess_closed cfg t b cb hrs
  constructor
  · simp [onClose, hstep, duplexDestroy, destroyImpl]
  · simp [onError, hstep, duplexDestroy, destroyImpl]

/-- Witness for C4 (amended) at a concrete closed transport, with an error
event carrying no message. -/
theorem close_error_destroy_path_witness :
    (TransportView.mk ReadyState.closed 0 (fun _ => none)).readyState
        = ReadyState.closed ∧
    onClose ⟨10, 50⟩ ⟨ReadyState.closed, 0, fun _ => none⟩
        ⟨⟨some [1], some 2⟩, false⟩ =
      (⟨⟨none, none⟩, true⟩,
       [Effect.completed 2 (some WriteError.notConnected),
        Effect.removedListener "message", Effect.removedListener "error",
        Effect.removedListener "close", Effect.removedListener "open",
        Effect.closedHandle,
        Effect.destroyCallback (some "connection closed")]) :=
  ⟨rfl,
   (close_error_destroy_path ⟨10, 50⟩ ⟨ReadyState.closed, 0, fun _ => none⟩
     [1] 2 none rfl).1⟩

/-- Counterexample to C4 as stated: an error event delivered while
`readyState` is the closing value (as the WebSocket failure path does: the
error event fires before the state reaches CLOSED) with a write pending.
The destroy path runs and its completion callback fires, but the pending
write's callback is never invoked during the handler (no `completed`
effect) and both pending fields remain set. -/
theorem close_error_destroy_path_cex :
    onError ⟨10, 50⟩ ⟨ReadyState.closing, 0, fun _ => none⟩ none
        ⟨⟨some [1], some 0⟩, false⟩ =
      (⟨⟨some [1], some 0⟩, true⟩,
       [Effect.removedListener "message", Effect.removedListener "error",
        Effect.removedListener "close", Effect.removedListener "open",
        Effect.closedHandle,
        Effect.destroyCallback (some "connection refused")]) ∧
    completions (onError ⟨10, 50⟩ ⟨ReadyState.closing, 0, fun _ => none⟩ none
        ⟨⟨some [1], some 0⟩, false⟩).2 = [] := by
  constructor
  · decide
  · decide

/-- Claim C5: in every state reachable by any sequence of adapter operations
from construction (writev entry, advance, open/close/error events,
duplex-driven destroy), the pending write buffer is absent if and only if
the pending write callback is absent. -/
theorem pending_pair_never_half_set (cfg : Config) (ops : List AdapterOp) :
    pairInv (runOps cfg ops).adapter := by
  rw [runOps]
  have h : ∀ (l : List AdapterOp) (d : DuplexState), pairInv d.adapter →
      pairInv (l.foldl (fun d op => (applyOp cfg d op).1) d).adapter := by
    intro l
    induction l with
    | nil => intro d hd; exact hd
    | cons op rest ih =>
      intro d hd
      exact ih _ (applyOp_pairInv cfg d op hd)
  exact h ops initialState (by simp [pairInv, initialState])

/-- Claim C6: completing an outstanding write clears both pending fields
first and invokes the stored callback exactly once with `none` (success)
or the triggering error; the state at invocation time is the cleared one,
so any re-entrant call into the advance routine from within the callback
is a no-op. -/
theorem completion_clears_then_invokes (s : AdapterState) (cb : Nat)
    (err : Option WriteError) (h : s.pendingWriteCallback = some cb) :
    finishPendingWrite s err = (⟨none, none⟩, [Effect.completed cb err]) ∧
    ∀ (cfg : Config) (t : TransportView),
      maybeProcessPendingWrite cfg t (finishPendingWrite s err).1
        = ((finishPendingWrite s err).1, []) := by
  have h1 : finishPendingWrite s err
      = (⟨none, none⟩, [Effect.completed cb err]) := by
    rw [finishPendingWrite, h]
  exact ⟨h1, fun cfg t => by
    rw [h1]
    exact maybeProcess_callback_none cfg t _ rfl⟩

/-- Witness for C6 at a concrete outstanding write, completing with
success. -/
theorem completion_clears_then_invokes_witness :
    (AdapterState.mk (some [1]) (some 2)).pendingWriteCallback = some 2 ∧
    finishPendingWrite ⟨some [1], some 2⟩ none
      = (⟨none, none⟩, [Effect.completed 2 none]) :=
  ⟨rfl, (completion_clears_then_invokes ⟨some [1], some 2⟩ 2 none rfl).1⟩

/-- Claim C7: if `send` raises synchronously during an advance step (open
transport, non-zero headroom), the outstanding write's callback is invoked
exactly once with that same error, the pending fields are cleared, and the
effects are only the `send` attempt and the callback — no listener removal,
no transport close, no destroy: the failure does not tear down the
adapter. -/
theorem send_failure_fails_only_write (cfg : Config) (t : TransportView)
    (b : Bytes) (cb e : Nat)
    (hrs : t.readyState = ReadyState.opened)
    (hspace : bufferSpaceAvailable cfg t ≠ 0)
    (hsend : t.sendResult (chunkFor cfg t b) = some e) :
    maybeProcessPendingWrite cfg t ⟨some b, some cb⟩ =
      (⟨none, none⟩,
       [Effect.sent (chunkFor cfg t b),
        Effect.completed cb (some (WriteError.sendError e))]) := by
  simp only [maybeProcessPendingWrite, finishPendingWrite, Option.getD_some]
  rw [if_neg (by rw [hrs]; simp), if_neg (by rw [hrs]; simp), if_neg hspace,
    hsend]

/-- Witness for C7: a transport whose `send` always throws error `9`. -/
theorem send_failure_fails_only_write_witness :
    (TransportView.mk ReadyState.opened 0 (fun _ => some 9)).readyState
        = ReadyState.opened ∧
    bufferSpaceAvailable ⟨4, 50⟩ ⟨ReadyState.opened, 0, fun _ => some 9⟩ ≠ 0 ∧
    (TransportView.mk ReadyState.opened 0 (fun _ => some 9)).sendResult
        (chunkFor ⟨4, 50⟩ ⟨ReadyState.opened, 0, fun _ => some 9⟩ [1, 2])
        = some 9 ∧
    maybeProcessPendingWrite ⟨4, 50⟩ ⟨ReadyState.opened, 0, fun _ => some 9⟩
        ⟨some [1, 2], some 3⟩ =
      (⟨none, none⟩,
       [Effect.sent (chunkFor ⟨4, 50⟩ ⟨ReadyState.opened, 0, fun _ => some 9⟩
          [1, 2]),
        Effect.completed 3 (some (WriteError.sendError 9))]) :=
  ⟨rfl, by decide, rfl,
   send_failure_fails_only_write ⟨4, 50⟩ ⟨ReadyState.opened, 0, fun _ => some 9⟩
     [1, 2] 3 9 rfl (by decide) rfl⟩

/-- Claim C8: while the transport is neither open nor closed (still
connecting), the advance routine performs no send and leaves the pending
fields unchanged, and a writev submission installs the write and triggers
no send; once the open event fires, the open handler and the subsequent
polls send the full buffer (given positive headroom and enough polls). -/
theorem connecting_defers_until_open (cfg : Config) (t : TransportView)
    (s : AdapterState) (chunks : List Bytes) (cb : Nat)
    (h1 : t.readyState ≠ ReadyState.opened)
    (h2 : t.readyState ≠ ReadyState.closed) :
    maybeProcessPendingWrite cfg t s = (s, []) ∧
    writevCall cfg t chunks cb s = (⟨some chunks.flatten, some cb⟩, []) ∧
    ∀ (a : Nat) (amounts : List Nat) (b : Bytes) (cb' : Nat) (d0 : Bool),
      (∀ x ∈ a :: amounts, x < cfg.bufferSize) →
      b.length < (a :: amounts).length →
      (sentChunks ((onOpen cfg (openView a) ⟨⟨some b, some cb'⟩, d0⟩).2
          ++ (advanceTrace cfg amounts
               (onOpen cfg (openView a) ⟨⟨some b, some cb'⟩, d0⟩).1.adapter).2)).flatten
        = b := by
  have hnoop : ∀ s' : AdapterState,
      maybeProcessPendingWrite cfg t s' = (s', []) := by
    intro s'
    rcases hs : s'.pendingWriteCallback with _ | cb0
    · exact maybeProcess_callback_none cfg t s' hs
    · simp only [maybeProcessPendingWrite, hs]
      rw [if_neg h2, if_pos h1]
  refine ⟨hnoop s, by rw [writevCall, hnoop]; rfl, ?_⟩
  intro a amounts b cb' d0 hall hlen
  have hdrain := (advanceTrace_drain cfg (a :: amounts) b cb' hall hlen).2.1
  simp only [advanceTrace] at hdrain
  simpa [onOpen, sentChunks_connect, sentChunks_append] using hdrain

/-- Witness for C8 at a concrete connecting transport, with one poll after
the open event. -/
theorem connecting_defers_until_open_witness :
    (TransportView.mk ReadyState.connecting 0 (fun _ => none)).readyState
        ≠ ReadyState.opened ∧
    (TransportView.mk ReadyState.connecting 0 (fun _ => none)).readyState
        ≠ ReadyState.closed ∧
    maybeProcessPendingWrite ⟨10, 50⟩
        ⟨ReadyState.connecting, 0, fun _ => none⟩ ⟨some [1], some 0⟩
      = (⟨some [1], some 0⟩, []) ∧
    writevCall ⟨10, 50⟩ ⟨ReadyState.connecting, 0, fun _ => none⟩
        [[2]] 1 ⟨some [1], some 0⟩
      = (⟨some [2], some 1⟩, []) :=
  ⟨by decide, by decide,
   (connecting_defers_until_open ⟨10, 50⟩
     ⟨ReadyState.connecting, 0, fun _ => none⟩ ⟨some [1], some 0⟩ [[2]] 1
     (by decide) (by decide)).1,
   (connecting_defers_until_open ⟨10, 50⟩
     ⟨ReadyState.connecting, 0, fun _ => none⟩ ⟨some [1], some 0⟩ [[2]] 1
     (by decide) (by decide)).2.1⟩

/-- Claim C9: a duplex-driven `_destroy` leaves both pending-write fields
unchanged and never invokes the pending write's callback: it only removes
the four listeners (in source order), closes the transport, and forwards
the destroy error to the destroy completion callback. -/
theorem destroy_leaves_pending_untouched (err : Option String)
    (s : AdapterState) :
    destroyImpl err s =
      (s, [Effect.removedListener "message", Effect.removedListener "error",
           Effect.removedListener "close", Effect.removedListener "open",
           Effect.closedHandle, Effect.destroyCallback err]) ∧
    completions (destroyImpl err s).2 = [] :=
  ⟨rfl, rfl⟩

/-- Claim C10: a `_writev` call unconditionally replaces the pending buffer
with the concatenation of the given chunks and the pending callback with
the new callback; the previously outstanding callback is not invoked
during the call, and — since it is no longer stored — not by any later
operation either (unless a later writev re-installs the same callback
token, which the duplex contract's fresh callbacks exclude). -/
theorem writev_replaces_pending (cfg : Config) (t : TransportView)
    (chunks : List Bytes) (cb : Nat) (s : AdapterState) (cbOld : Nat)
    (_hold : s.pendingWriteCallback = some cbOld) (hne : cbOld ≠ cb) :
    writevInstall chunks cb s = ⟨some chunks.flatten, some cb⟩ ∧
    (∀ err, (cbOld, err) ∉ completions (writevCall cfg t chunks cb s).2) ∧
    ∀ (ops : List AdapterOp) (d0 : Bool),
      (∀ op ∈ ops, ¬ opInstalls cbOld op) →
      ∀ err, (cbOld, err) ∉ completions
        (runOpsFrom cfg ⟨(writevCall cfg t chunks cb s).1, d0⟩ ops).2 := by
  have hafter : (writevCall cfg t chunks cb s).1.pendingWriteCallback
      ≠ some cbOld := by
    rcases maybeProcess_callback_after cfg t (writevInstall chunks cb s)
        with hc | hc
    · rw [writevCall, hc]
      simp [writevInstall]
      exact fun heq => hne heq.symm
    · rw [writevCall, hc]
      simp
  refine ⟨rfl, fun err hmem => ?_, fun ops d0 hops err => ?_⟩
  · have hsrc := maybeProcess_completion_src cfg t _ cbOld err hmem
    simp only [writevInstall, Option.some_inj] at hsrc
    exact hne hsrc.symm
  · exact (runOpsFrom_no_foreign_completion cfg cbOld ops
      ⟨(writevCall cfg t chunks cb s).1, d0⟩ hafter hops).1 err

/-- Witness for C10: overwrite an outstanding write with callback `5` by a
new write with callback `1` on an open transport, then run a close event. -/
theorem writev_replaces_pending_witness :
    (AdapterState.mk (some [9]) (some 5)).pendingWriteCallback = some 5 ∧
    (5 : Nat) ≠ 1 ∧
    writevInstall [[2, 3]] 1 ⟨some [9], some 5⟩ = ⟨some [2, 3], some 1⟩ ∧
    ((5, some WriteError.notConnected) ∉ completions
      (writevCall ⟨10, 50⟩ (openView 0) [[2, 3]] 1 ⟨some [9], some 5⟩).2) :=
  ⟨rfl, by decide,
   (writev_replaces_pending ⟨10, 50⟩ (openView 0) [[2, 3]] 1
     ⟨some [9], some 5⟩ 5 rfl (by decide)).1,
   (writev_replaces_pending ⟨10, 50⟩ (openView 0) [[2, 3]] 1
     ⟨some [9], some 5⟩ 5 rfl (by decide)).2.1 (some WriteError.notConnected)⟩

end RTCStream
